import Mathlib

/-!
Verification of the cliq DAQ pipeline (src/utils.rs, src/tui.rs, src/writer.rs)
against its natural-language specification.

The Rust code is shallowly embedded: machine integers become `Nat`/`Int`
(the values involved never overflow their Rust types on the inputs we
consider), `f64` arithmetic on small integer ADC values becomes exact `ℚ`
arithmetic, fallible code returns `Except String`, and a Rust index panic
is modelled as `Option.none`.
-/

set_option maxHeartbeats 1000000

namespace Cliq

/-! ## Sync delay derivation (src/utils.rs, get_clock_out_delay / get_run_delay) -/

/-- Embedding of `get_clock_out_delay` (src/utils.rs:294-305).
`last_board` is `board_id == num_boards - 1` on `usize`; for `num_boards ≥ 1`
(and in fact for every `board_id < 2^64 - 1`) this is equivalent to
`board_id + 1 == num_boards`, which avoids truncated subtraction. -/
def get_clock_out_delay (board_id num_boards : Nat) : Int :=
  if board_id + 1 = num_boards then 0
  else if board_id = 0 then -2148
  else -3111

/-- Embedding of `get_run_delay` (src/utils.rs:307-318). `Nat` subtraction
matches the `usize` subtraction on the panic-free domain `board_id < num_boards`. -/
def get_run_delay (board_id num_boards : Nat) : Nat :=
  let board_id_from_last := num_boards - board_id - 1
  let run_delay_clk := 2 * board_id_from_last
  let run_delay_clk := if board_id = 0 then run_delay_clk + 4 else run_delay_clk
  run_delay_clk * 8

/-! ## Zero suppression (src/tui.rs, zero_suppress) -/

/-- Embedding of the `ZeroSuppressionEdge` enum (src/config.rs). -/
inductive ZeroSuppressionEdge where
  | Fall
  | Rise
  deriving DecidableEq

/-- Baseline of one channel: mean of the first `bl_samples` samples
(src/tui.rs:728-732). ADC samples are `u16`, embedded as `Nat`; the `f64`
arithmetic is embedded as exact `ℚ` arithmetic. -/
def channelBaseline (bl_samples : Nat) (channel : List Nat) : ℚ :=
  (((channel.take bl_samples).map (fun (v : Nat) => (v : ℚ))).sum) / (bl_samples : ℚ)

/-- One sample of the suppression rule (src/tui.rs:733-738 and 746-751):
Rise zeroes a sample when `x - baseline < threshold`, Fall when
`x - baseline > threshold`. -/
def suppressSample (threshold : ℚ) (edge : ZeroSuppressionEdge) (baseline : ℚ)
    (adc : Nat) : Nat :=
  match edge with
  | ZeroSuppressionEdge.Rise => if (adc : ℚ) - baseline < threshold then 0 else adc
  | ZeroSuppressionEdge.Fall => if threshold < (adc : ℚ) - baseline then 0 else adc

/-- Suppression of one channel (one closure body of `zero_suppress`,
src/tui.rs:726-752). When `bl_samples = 0` the Rust code computes
`0.0 / 0.0 = NaN` as the baseline and every comparison against NaN is false,
so the channel is left unchanged; the guard mirrors that. -/
def suppressChannel (threshold : ℚ) (edge : ZeroSuppressionEdge) (bl_samples : Nat)
    (channel : List Nat) : List Nat :=
  if bl_samples = 0 then channel
  else channel.map (suppressSample threshold edge (channelBaseline bl_samples channel))

/-- Embedding of `zero_suppress` (src/tui.rs:715-754): the waveform matrix is
processed channel by channel (the Rust channel-parallel iteration is
order-independent, so a sequential map is observationally identical). -/
def zero_suppress (threshold : ℚ) (edge : ZeroSuppressionEdge) (bl_samples : Nat)
    (waveform : List (List Nat)) : List (List Nat) :=
  waveform.map (suppressChannel threshold edge bl_samples)

/-- The suppression gate in `event_processing` (src/tui.rs:568-571): a uniform
draw `r` selects the event for suppression when `r > zs_level`. -/
def zsApply (r zs_level zs_threshold : ℚ) (zs_edge : ZeroSuppressionEdge)
    (zs_samples : Nat) (waveform : List (List Nat)) : List (List Nat) :=
  if zs_level < r then zero_suppress zs_threshold zs_edge zs_samples waveform
  else waveform

/-! ## Event alignment (src/utils.rs, align_queues) -/

/-- The part of a `BoardEvent` (src/utils.rs:10-14) that `align_queues` and the
alignment step of `event_processing` inspect: the originating board index and
the `u32` trigger identifier of the wrapped event. -/
structure BEvent where
  board_id : Nat
  trigger_id : Nat
  deriving DecidableEq

/-- Trigger id at the front of one per-board queue (`q.front()`); the default
value is never used on the paths where all queues are non-empty. -/
def frontId (q : List BEvent) : Nat :=
  (q.head?.map BEvent.trigger_id).getD 0

/-- The `ids` vector built by `align_queues` (src/utils.rs:331-334). -/
def frontIds (qs : List (List BEvent)) : List Nat :=
  qs.map frontId

/-- The check `ids.windows(2).all(w[0] == w[1])` (src/utils.rs:337): adjacent
pairwise equality of a list is equality of every element with the first. -/
def allEqual (l : List Nat) : Bool :=
  match l with
  | [] => true
  | x :: xs => xs.all (fun y => y == x)

/-- `*ids.iter().max().unwrap()` (src/utils.rs:342), total via a 0 default;
it is only used on non-empty `ids`. -/
def maxId (l : List Nat) : Nat :=
  l.foldr max 0

/-- The drop phase of `align_queues` (src/utils.rs:343-353): every queue pops
from the front while the front trigger id is below `m`. -/
def dropStale (m : Nat) (qs : List (List BEvent)) : List (List BEvent) :=
  qs.map (fun q => q.dropWhile (fun e => e.trigger_id < m))

/-- Total number of queued events across all per-board queues. -/
def totalLen (qs : List (List BEvent)) : Nat :=
  (qs.map List.length).sum

/-- `queues.iter().any(q.front().is_none())` (src/utils.rs:326). -/
def anyEmpty (qs : List (List BEvent)) : Bool :=
  qs.any List.isEmpty

/-- Fuel-indexed body of the `loop` in `align_queues` (src/utils.rs:323-355).
Each pass through the loop either breaks (some queue empty, or all fronts
equal) or drops at least one stale event, so `totalLen qs + 1` fuel always
suffices (`alignAux_break`); the fuel only makes the recursion structural.
The misaligned counter increases by the number of dropped events, exactly as
the per-pop `*misaligned_count += 1` does. -/
def alignAux : Nat → List (List BEvent) → Nat → List (List BEvent) × Nat
  | 0, qs, mis => (qs, mis)
  | fuel + 1, qs, mis =>
    if anyEmpty qs then (qs, mis)
    else if allEqual (frontIds qs) then (qs, mis)
    else
      let qs2 := dropStale (maxId (frontIds qs)) qs
      alignAux fuel qs2 (mis + (totalLen qs - totalLen qs2))

/-- Embedding of `align_queues` (src/utils.rs:323-355). -/
def align_queues (qs : List (List BEvent)) (mis : Nat) : List (List BEvent) × Nat :=
  alignAux (totalLen qs + 1) qs mis

/-! ## Dropped-event accounting (src/tui.rs, event_processing) -/

/-- One step of the dropped-event accounting in `event_processing`
(src/tui.rs:586-593): the state is `(curr_trig_id, dropped_count)`; when the
emitted aligned group has trigger id `trgid ≠ curr_trig_id` the count grows by
`|trgid - curr_trig_id|` (computed on `isize` in the source, embedded via `ℤ`),
and `curr_trig_id` becomes `trgid + 1` in every case. -/
def processGroupTid (state : Nat × Nat) (trgid : Nat) : Nat × Nat :=
  let dropped :=
    if trgid ≠ state.1 then state.2 + ((trgid : ℤ) - (state.1 : ℤ)).natAbs
    else state.2
  (trgid + 1, dropped)

/-- The dropped-event count after the processing worker has emitted the aligned
groups with the given trigger ids, in order: `curr_trig_id` is initialized to 0
(src/tui.rs:538) and `dropped_count` to 0. -/
def droppedAfter (tids : List Nat) : Nat :=
  (tids.foldl processGroupTid (0, 0)).2

/-- Modelled from the spec: the dropped-event rule as the specification states
it, with expected id `e` — each group contributes `|T - e|` and resets the
expectation to `T + 1`. Used to characterize `droppedAfter` in closed form. -/
def specDropped : Nat → List Nat → Nat
  | _, [] => 0
  | e, t :: ts => ((t : ℤ) - (e : ℤ)).natAbs + specDropped (t + 1) ts

/-! ## HDF5 writer (src/writer.rs)

Datasets are fixed-size arrays initialized to zeros (the value HDF5 reports
for never-written regions of a chunked dataset); `write_slice` over the event
ordinal range `[start, start + data.length)` is `writeSlice`. The per-board
staging buffers are pre-allocated arrays of which only the first
`buffer_count` rows are live; they are modelled by lists holding exactly the
live rows, so resetting `buffer_count = 0` becomes clearing the lists. File
handles and HDF5 error paths of successful operations are not represented;
the filename bookkeeping of `new`/`rollover` is modelled separately below. -/

/-- A region write into a dataset at the given start ordinal. -/
def writeSlice {α : Type} (disk : List α) (start : Nat) (data : List α) : List α :=
  disk.take start ++ data ++ disk.drop (start + data.length)

/-- One board of `HDF5Writer`: embedding of `BoardData` (src/writer.rs:187-204),
with the five on-disk datasets represented by their contents. -/
structure BoardData where
  current_event : Nat
  max_events : Nat
  buffer_capacity : Nat
  n_channels : Nat
  n_samples : Nat
  ts_buffer : List Nat
  wf_buffer : List (List (List Nat))
  trigid_buffer : List Nat
  flag_buffer : List Nat
  fail_buffer : List Bool
  disk_timestamps : List Nat
  disk_waveforms : List (List (List Nat))
  disk_triggerids : List Nat
  disk_flags : List Nat
  disk_boardfail : List Bool
  deriving DecidableEq

/-- Embedding of `BoardData::new` (src/writer.rs:206-283): empty staging
buffers and zero-initialized datasets of `max_events` rows. -/
def BoardData.new (n_channels n_samples max_events buffer_capacity : Nat) : BoardData :=
  { current_event := 0
    max_events := max_events
    buffer_capacity := buffer_capacity
    n_channels := n_channels
    n_samples := n_samples
    ts_buffer := []
    wf_buffer := []
    trigid_buffer := []
    flag_buffer := []
    fail_buffer := []
    disk_timestamps := List.replicate max_events 0
    disk_waveforms :=
      List.replicate max_events (List.replicate n_channels (List.replicate n_samples 0))
    disk_triggerids := List.replicate max_events 0
    disk_flags := List.replicate max_events 0
    disk_boardfail := List.replicate max_events false }

/-- Embedding of `BoardData::flush` (src/writer.rs:323-360). The source writes
only the `timestamps` and `waveforms` staged slices to disk; the staged
trigger ids, flags and board-fail values are discarded when `buffer_count` is
reset (their datasets are never written). -/
def BoardData.flush (b : BoardData) : BoardData :=
  if b.ts_buffer.length = 0 then b
  else
    { b with
      disk_timestamps := writeSlice b.disk_timestamps b.current_event b.ts_buffer
      disk_waveforms := writeSlice b.disk_waveforms b.current_event b.wf_buffer
      current_event := b.current_event + b.ts_buffer.length
      ts_buffer := []
      wf_buffer := []
      trigid_buffer := []
      flag_buffer := []
      fail_buffer := [] }

/-- Embedding of `BoardData::append_event` (src/writer.rs:286-320): dimension
check, capacity check, staging, and flush when the buffer reaches capacity. -/
def BoardData.append_event (b : BoardData) (timestamp : Nat)
    (waveforms : List (List Nat)) (trigger_id : Nat) (flag : Nat) (fail : Bool) :
    Except String BoardData :=
  if ¬ (waveforms.length = b.n_channels ∧ ∀ row ∈ waveforms, row.length = b.n_samples) then
    Except.error "Event dimensions do not match dataset dimensions"
  else if b.max_events ≤ b.current_event + b.ts_buffer.length then
    Except.error "Maximum number of events reached"
  else
    let b2 := { b with
      ts_buffer := b.ts_buffer ++ [timestamp]
      trigid_buffer := b.trigid_buffer ++ [trigger_id]
      flag_buffer := b.flag_buffer ++ [flag]
      fail_buffer := b.fail_buffer ++ [fail]
      wf_buffer := b.wf_buffer ++ [waveforms] }
    if b2.ts_buffer.length = b2.buffer_capacity then Except.ok b2.flush
    else Except.ok b2

/-- Embedding of `BoardData::take_buffer` (src/writer.rs:364-370): returns the
staged timestamps and waveforms with their count and resets `buffer_count`
(which also empties the staged trigger-id, flag and fail regions). -/
def BoardData.take_buffer (b : BoardData) :
    (List Nat × List (List (List Nat)) × Nat) × BoardData :=
  ((b.ts_buffer, b.wf_buffer, b.ts_buffer.length),
   { b with
     ts_buffer := []
     wf_buffer := []
     trigid_buffer := []
     flag_buffer := []
     fail_buffer := [] })

/-- Embedding of `BoardData::append_buffer` (src/writer.rs:374-396): writes a
taken buffer directly to the datasets starting at `current_event`. -/
def BoardData.append_buffer (b : BoardData) (ts_buffer : List Nat)
    (wf_buffer : List (List (List Nat))) (count : Nat) : Except String BoardData :=
  if b.max_events < b.current_event + count then
    Except.error "Not enough space in the new file for rollover buffer"
  else
    Except.ok { b with
      disk_timestamps := writeSlice b.disk_timestamps b.current_event ts_buffer
      disk_waveforms := writeSlice b.disk_waveforms b.current_event wf_buffer
      current_event := b.current_event + count }

/-- Embedding of `HDF5Writer` (src/writer.rs:7-18); the file handle and the
filename template are handled separately (see the run-file naming section). -/
structure HDF5Writer where
  boards : List BoardData
  n_channels : Nat
  n_samples : Nat
  max_events_per_board : Nat
  buffer_capacity : Nat
  subrun : Nat
  saved_events : Nat
  deriving DecidableEq

/-- Embedding of `HDF5Writer::new` (src/writer.rs:21-60) together with
`create_boards`: `n_boards` identical fresh boards. -/
def HDF5Writer.new (n_channels n_samples n_boards max_events_per_board
    buffer_capacity : Nat) : HDF5Writer :=
  { boards := List.replicate n_boards
      (BoardData.new n_channels n_samples max_events_per_board buffer_capacity)
    n_channels := n_channels
    n_samples := n_samples
    max_events_per_board := max_events_per_board
    buffer_capacity := buffer_capacity
    subrun := 0
    saved_events := 0 }

/-- The re-insertion loop of `HDF5Writer::rollover` (src/writer.rs:170-175):
board `i` receives the `i`-th taken buffer when its count is positive; the
first failing `append_buffer` aborts the whole rollover with its error. -/
def reinsertBuffers : List BoardData → List (List Nat × List (List (List Nat)) × Nat) →
    Except String (List BoardData)
  | bs, [] => Except.ok bs
  | [], _ :: _ => Except.ok []
  | b :: bs, v :: vs =>
    let step : Except String BoardData :=
      if 0 < v.2.2 then b.append_buffer v.1 v.2.1 v.2.2 else Except.ok b
    match step with
    | Except.error e => Except.error e
    | Except.ok b2 =>
      match reinsertBuffers bs vs with
      | Except.error e => Except.error e
      | Except.ok bs2 => Except.ok (b2 :: bs2)

/-- Embedding of `HDF5Writer::rollover` (src/writer.rs:129-183): take every
board buffer, increment the subrun, recreate fresh boards of the same shape,
re-insert the taken buffers, and recompute `saved_events`. -/
def HDF5Writer.rollover (w : HDF5Writer) : Except String HDF5Writer :=
  let vals := w.boards.map (fun b => b.take_buffer.1)
  let fresh := List.replicate w.boards.length
    (BoardData.new w.n_channels w.n_samples w.max_events_per_board w.buffer_capacity)
  match reinsertBuffers fresh vals with
  | Except.error e => Except.error e
  | Except.ok bs =>
    Except.ok { w with
      subrun := w.subrun + 1
      boards := bs
      saved_events := (bs.map BoardData.current_event).sum }

/-- Board replacement after a successful per-board append. -/
def HDF5Writer.setBoard (w : HDF5Writer) (i : Nat) (b : BoardData) : HDF5Writer :=
  { w with boards := w.boards.set i b }

/-- Embedding of `HDF5Writer::append_event` (src/writer.rs:91-113). The Rust
`self.boards[board]` index panics when `board` is out of bounds; the panic is
modelled as `none`. A capacity error (the source tests
`e.to_string().contains("Maximum number of events reached")`, and that text
occurs in no other error produced here) triggers a rollover followed by one
retry of the append against the new file. -/
def HDF5Writer.append_event (w : HDF5Writer) (board : Nat) (timestamp : Nat)
    (waveforms : List (List Nat)) (trigger_id : Nat) (flag : Nat) (fail : Bool) :
    Option (Except String HDF5Writer) :=
  match w.boards[board]? with
  | none => none
  | some b =>
    match b.append_event timestamp waveforms trigger_id flag fail with
    | Except.ok b2 => some (Except.ok (w.setBoard board b2))
    | Except.error e =>
      if e = "Maximum number of events reached" then
        match w.rollover with
        | Except.error e2 => some (Except.error e2)
        | Except.ok w2 =>
          match w2.boards[board]? with
          | none => none
          | some b3 =>
            match b3.append_event timestamp waveforms trigger_id flag fail with
            | Except.ok b4 => some (Except.ok (w2.setBoard board b4))
            | Except.error e3 => some (Except.error e3)
      else some (Except.error e)

/-- Two staged appends on a fresh board with capacity parameters
(C = 1, S = 1, E = 4, B = 2): the second append fills the buffer and flushes.
Used to evaluate what `flush` persists. -/
def flushedBoard : Except String BoardData :=
  ((BoardData.new 1 1 4 2).append_event 10 [[3]] 7 0 false).bind
    (fun b => b.append_event 11 [[4]] 8 0 false)

/-- A board (C = 1, S = 1, E = 2, B = 3) with one flushed and one staged
event, so that its file is full: `current_event + buffered ≥ E`. -/
def c3Board : BoardData :=
  { BoardData.new 1 1 2 3 with
    current_event := 1
    ts_buffer := [5]
    wf_buffer := [[[6]]]
    trigid_buffer := [7]
    flag_buffer := [0]
    fail_buffer := [false] }

/-- A single-board writer around `c3Board`, used to exercise the
rollover-and-retry path of `HDF5Writer::append_event`. -/
def c3Writer : HDF5Writer :=
  { HDF5Writer.new 1 1 1 2 3 with boards := [c3Board] }

/-! ## Run-file naming (src/tui.rs create_run_file, src/writer.rs new/rollover)

File names are modelled as `List Char`. Only the file-name component matters:
the campaign directory prefix contains no underscore-digit patterns touched
by the replacements below. -/

/-- Replace every non-overlapping occurrence of `pat` (non-empty on all call
sites, as in the source) by `rep`, scanning left to right — the behavior of
Rust `str::replace`. The fuel equals the scanned length, which suffices
because every step consumes at least one character. -/
def replaceAllAux (pat rep : List Char) : Nat → List Char → List Char
  | _, [] => []
  | 0, s => s
  | fuel + 1, s =>
    if pat ≠ [] ∧ pat.isPrefixOf s then
      rep ++ replaceAllAux pat rep fuel (s.drop pat.length)
    else
      match s with
      | [] => []
      | c :: cs => c :: replaceAllAux pat rep fuel cs

/-- Rust `s.replace(pat, rep)` on character lists. -/
def replaceAll (s pat rep : List Char) : List Char :=
  replaceAllAux pat rep s.length s

/-- Rust `split(sep)`: the list of segments between separators (always
non-empty, like the Rust iterator). -/
def splitOnChar (sep : Char) : List Char → List (List Char)
  | [] => [[]]
  | c :: cs =>
    match splitOnChar sep cs with
    | [] => [[]]
    | p :: ps => if c = sep then [] :: p :: ps else (c :: p) :: ps

/-- `parse::<usize>()` restricted to the plain-digit numerals that appear in
run file names: all-digit, non-empty strings. -/
def parseNatDigits (s : List Char) : Option Nat :=
  if s ≠ [] ∧ s.all Char.isDigit then
    some (s.foldl (fun acc c => acc * 10 + (c.toNat - 48)) 0)
  else none

/-- The run-number extraction in `Tui::create_run_file` (src/tui.rs:479-493):
strip the prefix `run`, split at every underscore, parse the first part. -/
def parseRunNum (name : List Char) : Option Nat :=
  if ("run".toList).isPrefixOf name then
    match (splitOnChar '_' (name.drop 3)).head? with
    | some part => parseNatDigits part
    | none => none
  else none

/-- `iter().max()` on the parsed run numbers. -/
def maxOption (l : List Nat) : Option Nat :=
  l.foldr (fun a acc =>
    match acc with
    | none => some a
    | some b => some (max a b)) none

/-- Decimal digits of a natural number (fuel-based, `n + 1` always
suffices). -/
def natToDigitsAux : Nat → Nat → List Char
  | 0, _ => []
  | fuel + 1, n =>
    if n = 0 then []
    else natToDigitsAux fuel (n / 10) ++ [Char.ofNat (48 + n % 10)]

/-- Decimal rendering of a natural number, as Rust `format!` prints it. -/
def natToDigits (n : Nat) : List Char :=
  if n = 0 then ['0'] else natToDigitsAux (n + 1) n

/-- Embedding of the file-name construction of `Tui::create_run_file`
(src/tui.rs:496-503): `format!("run{}_0.h5", max + 1)` when the campaign
directory holds run files, else `run0_0.h5`. -/
def create_run_file_name (entries : List (List Char)) : List Char :=
  match maxOption (entries.filterMap parseRunNum) with
  | some m => "run".toList ++ natToDigits (m + 1) ++ "_0.h5".toList
  | none => "run0_0.h5".toList

/-- Embedding of the template computation in `HDF5Writer::new`
(src/writer.rs:31): `filename.replace("_00", "_\x7b\x7d")`. -/
def file_template (filename : List Char) : List Char :=
  replaceAll filename "_00".toList "_\x7b\x7d".toList

/-- Rust `format!("_\x7b:0>2\x7d", n)` without the underscore: zero-pad the
decimal digits to width two. -/
def pad2 (n : Nat) : List Char :=
  if n < 10 then '0' :: natToDigits n else natToDigits n

/-- Embedding of the new-filename computation in `HDF5Writer::rollover`
(src/writer.rs:144-147): substitute the 2-digit zero-padded subrun for the
`_\x7b\x7d` placeholder of the template. -/
def rollover_filename (template : List Char) (subrun : Nat) : List Char :=
  replaceAll template "_\x7b\x7d".toList ('_' :: pad2 subrun)

end Cliq

namespace Cliq

/-! ## Helper lemmas -/

/-- A map whose function fixes every member of the list is the identity. -/
theorem map_id_of_forall_mem {α : Type} {l : List α} {f : α → α}
    (h : ∀ x ∈ l, f x = x) : l.map f = l := by
  induction l with
  | nil => rfl
  | cons a t ih =>
    simp only [List.map_cons, h a (List.mem_cons_self a t),
      ih fun x hx => h x (List.mem_cons_of_mem a hx)]

/-- A suppressed sample is never larger than the original sample. -/
theorem suppressSample_le (threshold : ℚ) (edge : ZeroSuppressionEdge)
    (baseline : ℚ) (x : Nat) : suppressSample threshold edge baseline x ≤ x := by
  cases edge <;> simp only [suppressSample] <;> split <;> omega

/-- A zero sample stays zero under the suppression rule. -/
theorem suppressSample_zero (threshold : ℚ) (edge : ZeroSuppressionEdge)
    (baseline : ℚ) : suppressSample threshold edge baseline 0 = 0 := by
  cases edge <;> simp [suppressSample]

/-- Applying a pointwise-decreasing function to the samples can only lower the
channel baseline. -/
theorem channelBaseline_map_le (k : Nat) (ch : List Nat) (f : Nat → Nat)
    (hf : ∀ x, f x ≤ x) :
    channelBaseline k (ch.map f) ≤ channelBaseline k ch := by
  unfold channelBaseline
  rcases eq_or_ne k 0 with hk | hk
  · simp [hk]
  · have hk2 : (0 : ℚ) < (k : ℚ) := by
      exact_mod_cast Nat.pos_of_ne_zero hk
    apply (div_le_div_iff_of_pos_right hk2).mpr
    rw [← List.map_take, List.map_map]
    refine List.sum_le_sum fun i _ => ?_
    simp only [Function.comp_apply]
    exact_mod_cast hf i

/-! ## Theorems: delay derivation (claim C7) -/

/-- Claim C7: for `N ≥ 1` and `id < N`, `get_clock_out_delay` returns 0 for the
last board, -2148 for a first board that is not last, and -3111 otherwise, and
`get_run_delay` returns `8 * (2 * (N - 1 - id) + (4 if id = 0 else 0))`;
for N = 3 the clock-out delays are (-2148, -3111, 0) and the run delays
are (64, 16, 0). -/
theorem delay_derivation (board_id num_boards : Nat)
    (hN : 1 ≤ num_boards) (hid : board_id < num_boards) :
    (get_clock_out_delay board_id num_boards =
      if board_id = num_boards - 1 then 0
      else if board_id = 0 then -2148
      else -3111)
    ∧ get_run_delay board_id num_boards
        = 8 * (2 * (num_boards - 1 - board_id) + (if board_id = 0 then 4 else 0))
    ∧ get_clock_out_delay 0 3 = -2148 ∧ get_clock_out_delay 1 3 = -3111
    ∧ get_clock_out_delay 2 3 = 0
    ∧ get_run_delay 0 3 = 64 ∧ get_run_delay 1 3 = 16 ∧ get_run_delay 2 3 = 0 := by
  refine ⟨?_, ?_, by decide, by decide, by decide, by decide, by decide, by decide⟩
  · unfold get_clock_out_delay
    split_ifs <;> omega
  · unfold get_run_delay
    dsimp only
    split_ifs <;> omega

/-- Witness for C7 at `board_id = 0`, `num_boards = 3`. -/
theorem delay_derivation_witness :
    1 ≤ 3 ∧ 0 < 3 ∧
    ((get_clock_out_delay 0 3 =
      if (0 : Nat) = 3 - 1 then 0 else if (0 : Nat) = 0 then -2148 else -3111)
    ∧ get_run_delay 0 3 = 8 * (2 * (3 - 1 - 0) + (if (0 : Nat) = 0 then 4 else 0))
    ∧ get_clock_out_delay 0 3 = -2148 ∧ get_clock_out_delay 1 3 = -3111
    ∧ get_clock_out_delay 2 3 = 0
    ∧ get_run_delay 0 3 = 64 ∧ get_run_delay 1 3 = 16 ∧ get_run_delay 2 3 = 0) :=
  ⟨by decide, by decide, delay_derivation 0 3 (by decide) (by decide)⟩

/-! ## Theorems: zero suppression (claims C5 and C6) -/

/-- Claim C5: for an event selected for suppression (`r > level`) each channel
is processed independently: with `baseline` the mean of the first `k` samples,
a sample `x` becomes 0 exactly when edge = Rise and `x - baseline < threshold`,
or edge = Fall and `x - baseline > threshold`; in particular with `k = 4`,
`threshold = 50`, edge = Rise, the channel `[100,100,100,100,120,180,200,100]`
becomes `[0,0,0,0,0,180,200,0]`. -/
theorem zero_suppression_sample_rule (r level thr : ℚ) (edge : ZeroSuppressionEdge)
    (k : Nat) (wf : List (List Nat)) (hk : 0 < k) (hr : level < r) :
    zsApply r level thr edge k wf =
      wf.map (fun (ch : List Nat) =>
        ch.map (fun (x : Nat) =>
          if (edge = ZeroSuppressionEdge.Rise ∧
                (x : ℚ) - ((ch.take k).map (fun (v : Nat) => (v : ℚ))).sum / (k : ℚ) < thr)
             ∨ (edge = ZeroSuppressionEdge.Fall ∧
                thr < (x : ℚ) - ((ch.take k).map (fun (v : Nat) => (v : ℚ))).sum / (k : ℚ))
          then 0 else x))
    ∧ suppressChannel 50 ZeroSuppressionEdge.Rise 4 [100, 100, 100, 100, 120, 180, 200, 100]
        = [0, 0, 0, 0, 0, 180, 200, 0] := by
  refine ⟨?_, by norm_num [suppressChannel, channelBaseline, suppressSample]⟩
  unfold zsApply
  rw [if_pos hr]
  unfold zero_suppress
  refine List.map_congr_left fun ch _ => ?_
  unfold suppressChannel
  rw [if_neg (by omega : ¬ k = 0)]
  refine List.map_congr_left fun x _ => ?_
  unfold channelBaseline
  cases edge <;> simp [suppressSample]

/-- Witness for C5 at `r = 1`, `level = 0`, `threshold = 50`, edge = Rise,
`k = 4`, a single concrete channel. -/
theorem zero_suppression_sample_rule_witness :
    (0 : Nat) < 4 ∧ (0 : ℚ) < 1 ∧
    (zsApply 1 0 50 ZeroSuppressionEdge.Rise 4 [[100, 100, 100, 100, 120, 180, 200, 100]] =
      [[100, 100, 100, 100, 120, 180, 200, 100]].map (fun (ch : List Nat) =>
        ch.map (fun (x : Nat) =>
          if (ZeroSuppressionEdge.Rise = ZeroSuppressionEdge.Rise ∧
                (x : ℚ) - ((ch.take 4).map (fun (v : Nat) => (v : ℚ))).sum / (4 : ℚ) < 50)
             ∨ (ZeroSuppressionEdge.Rise = ZeroSuppressionEdge.Fall ∧
                50 < (x : ℚ) - ((ch.take 4).map (fun (v : Nat) => (v : ℚ))).sum / (4 : ℚ))
          then 0 else x))
    ∧ suppressChannel 50 ZeroSuppressionEdge.Rise 4 [100, 100, 100, 100, 120, 180, 200, 100]
        = [0, 0, 0, 0, 0, 180, 200, 0]) :=
  ⟨by decide, by norm_num,
   zero_suppression_sample_rule 1 0 50 ZeroSuppressionEdge.Rise 4
     [[100, 100, 100, 100, 120, 180, 200, 100]] (by decide) (by norm_num)⟩

/-- Counterexample to claim C6 as stated: with edge = Fall, `threshold = 50`,
`baseline-samples = 2`, the channel `[200, 0, 140]` suppresses to `[0, 0, 140]`
after one pass (baseline 100), but the second pass has baseline 0 and
additionally zeroes the surviving sample 140, so the transform is not
idempotent. -/
theorem zero_suppression_not_idempotent_fall :
    suppressChannel 50 ZeroSuppressionEdge.Fall 2
        (suppressChannel 50 ZeroSuppressionEdge.Fall 2 [200, 0, 140]) ≠
      suppressChannel 50 ZeroSuppressionEdge.Fall 2 [200, 0, 140] := by
  norm_num [suppressChannel, channelBaseline, suppressSample]

/-- Claim C6, amended: for edge = Rise the zero-suppression transform is
idempotent for every fixed (threshold, baseline-samples), and for both edges
samples already suppressed to zero remain zero under reapplication; the
unamended claim fails for edge = Fall (see the counterexample). -/
theorem zero_suppression_idempotence_amended (thr : ℚ) (k : Nat) (ch : List Nat) :
    suppressChannel thr ZeroSuppressionEdge.Rise k
        (suppressChannel thr ZeroSuppressionEdge.Rise k ch)
      = suppressChannel thr ZeroSuppressionEdge.Rise k ch
    ∧ ∀ (edge : ZeroSuppressionEdge) (i : Nat), ch[i]? = some 0 →
        (suppressChannel thr edge k ch)[i]? = some 0 := by
  constructor
  · rcases eq_or_ne k 0 with hk | hk
    · simp [suppressChannel, hk]
    · have hb : channelBaseline k
          (ch.map (suppressSample thr ZeroSuppressionEdge.Rise (channelBaseline k ch)))
          ≤ channelBaseline k ch :=
        channelBaseline_map_le k ch _ (fun x => suppressSample_le thr _ _ x)
      simp only [suppressChannel, if_neg hk]
      apply map_id_of_forall_mem
      intro y hy
      rcases List.mem_map.mp hy with ⟨x, _, rfl⟩
      by_cases hc : (x : ℚ) - channelBaseline k ch < thr
      · rw [show suppressSample thr ZeroSuppressionEdge.Rise (channelBaseline k ch) x = 0 from
          by simp [suppressSample, if_pos hc]]
        exact suppressSample_zero thr _ _
      · rw [show suppressSample thr ZeroSuppressionEdge.Rise (channelBaseline k ch) x = x from
          by simp [suppressSample, if_neg hc]]
        have hc2 : ¬ ((x : ℚ) - channelBaseline k
            (ch.map (suppressSample thr ZeroSuppressionEdge.Rise (channelBaseline k ch))) < thr) := by
          intro hlt
          apply hc
          linarith
        simp [suppressSample, if_neg hc2]
  · intro edge i hi
    unfold suppressChannel
    rcases eq_or_ne k 0 with hk | hk
    · simp [hk, hi]
    · rw [if_neg hk, List.getElem?_map, hi]
      simp [suppressSample_zero]

/-- Witness for the amended C6 at `threshold = 50`, `k = 2`, channel `[0, 5]`,
edge = Fall, index 0. -/
theorem zero_suppression_idempotence_amended_witness :
    (suppressChannel 50 ZeroSuppressionEdge.Rise 2
        (suppressChannel 50 ZeroSuppressionEdge.Rise 2 [0, 5])
      = suppressChannel 50 ZeroSuppressionEdge.Rise 2 [0, 5])
    ∧ ([0, 5] : List Nat)[0]? = some 0
    ∧ (suppressChannel 50 ZeroSuppressionEdge.Fall 2 [0, 5])[0]? = some 0 :=
  ⟨(zero_suppression_idempotence_amended 50 2 [0, 5]).1, rfl,
   (zero_suppression_idempotence_amended 50 2 [0, 5]).2 ZeroSuppressionEdge.Fall 0 rfl⟩

/-! ## Theorems: event alignment (claims C2 and C9) -/

/-- Every member of a list is bounded by `maxId`. -/
theorem le_maxId {a : Nat} {l : List Nat} (h : a ∈ l) : a ≤ maxId l := by
  induction l with
  | nil => cases h
  | cons x xs ih =>
    rcases List.mem_cons.mp h with rfl | h2
    · exact le_max_left _ _
    · exact le_trans (ih h2) (le_max_right _ _)

/-- `allEqual` holds exactly when all elements of the list coincide. -/
theorem allEqual_iff {l : List Nat} :
    allEqual l = true ↔ ∀ a ∈ l, ∀ b ∈ l, a = b := by
  cases l with
  | nil => simp [allEqual]
  | cons x xs =>
    simp only [allEqual, List.all_eq_true, beq_iff_eq]
    constructor
    · intro h a ha b hb
      rcases List.mem_cons.mp ha with rfl | ha2
      · rcases List.mem_cons.mp hb with rfl | hb2
        · rfl
        · exact (h b hb2).symm
      · rcases List.mem_cons.mp hb with rfl | hb2
        · exact h a ha2
        · exact (h a ha2).trans (h b hb2).symm
    · intro h y hy
      exact h y (List.mem_cons_of_mem x hy) x (List.mem_cons_self x xs)

/-- Core decrease fact: when no queue is empty and the fronts are not all
equal, the drop phase of `align_queues` strictly reduces the total number of
queued events. -/
theorem dropStale_totalLen_lt (qs : List (List BEvent))
    (h1 : anyEmpty qs = false) (h2 : allEqual (frontIds qs) = false) :
    totalLen (dropStale (maxId (frontIds qs)) qs) < totalLen qs := by
  have hne : ∀ q ∈ qs, q ≠ [] := by
    intro q hq
    have := List.any_eq_false.mp h1 q hq
    simpa [List.isEmpty_iff] using this
  have hex : ∃ q ∈ qs, frontId q < maxId (frontIds qs) := by
    by_contra hall
    push_neg at hall
    have : allEqual (frontIds qs) = true := by
      rw [allEqual_iff]
      intro a ha b hb
      rcases List.mem_map.mp ha with ⟨qa, hqa, rfl⟩
      rcases List.mem_map.mp hb with ⟨qb, hqb, rfl⟩
      have ha2 : frontId qa ≤ maxId (frontIds qs) :=
        le_maxId (List.mem_map_of_mem frontId hqa)
      have hb2 : frontId qb ≤ maxId (frontIds qs) :=
        le_maxId (List.mem_map_of_mem frontId hqb)
      have ha3 := hall qa hqa
      have hb3 := hall qb hqb
      omega
    rw [this] at h2
    cases h2
  rcases hex with ⟨q, hq, hlt⟩
  unfold totalLen dropStale
  rw [List.map_map]
  refine List.sum_lt_sum _ _ (fun p _ => (List.dropWhile_sublist _).length_le) ⟨q, hq, ?_⟩
  rcases List.exists_cons_of_ne_nil (hne q hq) with ⟨e, tail, rfl⟩
  have hfe : frontId (e :: tail) = e.trigger_id := rfl
  rw [hfe] at hlt
  simp only [Function.comp_apply, List.dropWhile_cons, decide_eq_true hlt, if_true]
  have h3 : (List.dropWhile (fun e => decide (e.trigger_id < maxId (frontIds qs))) tail).length
      ≤ tail.length :=
    (List.dropWhile_sublist _).length_le
  simp only [List.length_cons]
  omega

/-- `alignAux` with enough fuel always stops in a break state of the Rust
loop: either some queue is empty or all fronts are equal. -/
theorem alignAux_break (fuel : Nat) : ∀ (qs : List (List BEvent)) (mis : Nat),
    totalLen qs < fuel →
    anyEmpty (alignAux fuel qs mis).1 = true
    ∨ allEqual (frontIds (alignAux fuel qs mis).1) = true := by
  induction fuel with
  | zero => intro qs mis h; exact absurd h (Nat.not_lt_zero _)
  | succ fuel ih =>
    intro qs mis h
    by_cases h1 : anyEmpty qs = true
    · simp only [alignAux, if_pos h1]
      exact Or.inl h1
    · rw [Bool.not_eq_true] at h1
      by_cases h2 : allEqual (frontIds qs) = true
      · simp only [alignAux, h1, Bool.false_eq_true, if_false, if_pos h2]
        exact Or.inr h2
      · rw [Bool.not_eq_true] at h2
        have hdec := dropStale_totalLen_lt qs h1 h2
        simp only [alignAux, h1, h2, Bool.false_eq_true, if_false]
        exact ih _ _ (by omega)

/-- Claim C9: whenever the outer loop of `align_queues` does not break (no
queue is empty and the front trigger ids are not all equal), at least one
queue front lies strictly below the maximum front id, so the drop phase
strictly decreases the total number of queued events; hence the loop, and
`align_queues`, terminates on every finite input. -/
theorem align_queues_loop_decreases (qs : List (List BEvent))
    (h1 : anyEmpty qs = false) (h2 : allEqual (frontIds qs) = false) :
    totalLen (dropStale (maxId (frontIds qs)) qs) < totalLen qs :=
  dropStale_totalLen_lt qs h1 h2

/-- Witness for C9: two non-empty queues with unequal fronts; the drop phase
removes one event. -/
theorem align_queues_loop_decreases_witness :
    anyEmpty [[⟨0, 1⟩], [⟨1, 0⟩, ⟨1, 1⟩]] = false
    ∧ allEqual (frontIds [[⟨0, 1⟩], [⟨1, 0⟩, ⟨1, 1⟩]]) = false
    ∧ totalLen (dropStale (maxId (frontIds [[⟨0, 1⟩], [⟨1, 0⟩, ⟨1, 1⟩]]))
        [[⟨0, 1⟩], [⟨1, 0⟩, ⟨1, 1⟩]])
      < totalLen [[⟨0, 1⟩], [⟨1, 0⟩, ⟨1, 1⟩]] :=
  ⟨by decide, by decide,
   align_queues_loop_decreases [[⟨0, 1⟩], [⟨1, 0⟩, ⟨1, 1⟩]] (by decide) (by decide)⟩

/-- Claim C2: when `align_queues` returns with every per-board queue
non-empty, the front trigger identifiers of all queues coincide, so the
aligned group formed by popping one event from each queue carries one and the
same trigger identifier on every board. -/
theorem aligned_group_trigger_ids_equal (qs : List (List BEvent)) (mis : Nat)
    (h : (align_queues qs mis).1.all (fun q => !q.isEmpty) = true) :
    ∃ t : Nat, ∀ q ∈ (align_queues qs mis).1,
      q.head?.map BEvent.trigger_id = some t := by
  have hb := alignAux_break (totalLen qs + 1) qs mis (by omega)
  have hres : alignAux (totalLen qs + 1) qs mis = align_queues qs mis := rfl
  rw [hres] at hb
  have hne : ∀ q ∈ (align_queues qs mis).1, q ≠ [] := by
    intro q hq
    have := List.all_eq_true.mp h q hq
    simpa [List.isEmpty_iff] using this
  rcases hb with hb | hb
  · rcases List.any_eq_true.mp hb with ⟨q, hq, hqe⟩
    exact absurd (List.isEmpty_iff.mp hqe) (hne q hq)
  · cases hresq : (align_queues qs mis).1 with
    | nil => exact ⟨0, by simp [hresq]⟩
    | cons q0 rest =>
      rw [hresq] at hb hne
      refine ⟨frontId q0, ?_⟩
      intro q hq
      have heq : frontId q = frontId q0 :=
        (allEqual_iff.mp hb) _ (List.mem_map_of_mem frontId hq)
          _ (List.mem_map_of_mem frontId (List.mem_cons_self q0 rest))
      rcases List.exists_cons_of_ne_nil (hne q hq) with ⟨e, tail, rfl⟩
      show some e.trigger_id = some (frontId q0)
      rw [← heq]
      rfl

/-- Witness for C2: two queues; alignment drops the stale front of the second
queue and leaves both fronts with trigger id 1. -/
theorem aligned_group_trigger_ids_equal_witness :
    ((align_queues [[⟨0, 1⟩, ⟨0, 2⟩], [⟨1, 0⟩, ⟨1, 1⟩]] 0).1.all
        (fun q => !q.isEmpty) = true)
    ∧ ∃ t : Nat, ∀ q ∈ (align_queues [[⟨0, 1⟩, ⟨0, 2⟩], [⟨1, 0⟩, ⟨1, 1⟩]] 0).1,
        q.head?.map BEvent.trigger_id = some t :=
  ⟨by decide, aligned_group_trigger_ids_equal [[⟨0, 1⟩, ⟨0, 2⟩], [⟨1, 0⟩, ⟨1, 1⟩]] 0 (by decide)⟩

/-! ## Theorems: dropped-event accounting (claim C4) -/

/-- Counterexample to claim C4 as stated: `curr_trig_id` is initialized to 0,
not from the first aligned group, so a run whose first aligned group has
trigger id 5 already accumulates `|5 - 0| = 5` dropped events, while the claim
says the first aligned group never increases the count. -/
theorem dropped_count_first_group_counterexample :
    droppedAfter [5] = 5 ∧ droppedAfter [5] ≠ 0 := by
  constructor <;> decide

/-- Fold characterization of the dropped-event counter. -/
theorem foldl_processGroupTid (ts : List Nat) : ∀ e d : Nat,
    (ts.foldl processGroupTid (e, d)).2 = d + specDropped e ts := by
  induction ts with
  | nil => intro e d; simp [specDropped]
  | cons t ts ih =>
    intro e d
    simp only [List.foldl_cons, specDropped]
    have hstep : processGroupTid (e, d) t
        = (t + 1, if t ≠ e then d + ((t : ℤ) - (e : ℤ)).natAbs else d) := rfl
    rw [hstep, ih]
    rcases eq_or_ne t e with h | h
    · subst h
      simp
    · simp only [if_pos h]
      omega

/-- Claim C4, amended: the expected identifier starts at 0 (not at the first
aligned group), each aligned group with trigger id `T ≠ E` adds `|T − E|` to
`dropped_count` and every group sets `E ← T + 1`; consequently the first
aligned group increases the count by its own trigger id whenever that id is
non-zero. -/
theorem dropped_count_from_zero (tids : List Nat) :
    droppedAfter tids = specDropped 0 tids := by
  unfold droppedAfter
  rw [foldl_processGroupTid]
  omega

/-! ## Theorems: writer (claims C1, C3, C10) -/

/-- `flush` preserves `current_event + buffered` and the capacity. -/
theorem flush_sum (b : BoardData) :
    b.flush.current_event + b.flush.ts_buffer.length
        = b.current_event + b.ts_buffer.length
    ∧ b.flush.max_events = b.max_events := by
  unfold BoardData.flush
  split <;> simp_all

/-- A successful `BoardData.append_event` always leaves
`current_event + buffered ≤ max_events` and keeps the capacity. -/
theorem append_event_ok_inv {b b2 : BoardData} {t : Nat} {wf : List (List Nat)}
    {tid fl : Nat} {fa : Bool}
    (h : b.append_event t wf tid fl fa = Except.ok b2) :
    b2.current_event + b2.ts_buffer.length ≤ b2.max_events
    ∧ b2.max_events = b.max_events := by
  unfold BoardData.append_event at h
  split at h
  · cases h
  · split at h
    · cases h
    · rename_i hdim hcap
      dsimp only at h
      split at h <;> injection h with h2 <;> subst h2
      · rcases flush_sum { b with
          ts_buffer := b.ts_buffer ++ [t]
          trigid_buffer := b.trigid_buffer ++ [tid]
          flag_buffer := b.flag_buffer ++ [fl]
          fail_buffer := b.fail_buffer ++ [fa]
          wf_buffer := b.wf_buffer ++ [wf] } with ⟨h3, h4⟩
        rw [h3, h4]
        refine ⟨?_, rfl⟩
        simp only [List.length_append, List.length_cons, List.length_nil]
        omega
      · refine ⟨?_, rfl⟩
        simp only [List.length_append, List.length_cons, List.length_nil]
        omega

/-- A successful `append_buffer` advances `current_event` by the count, keeps
the staging buffer and capacity, and respects the capacity bound. -/
theorem append_buffer_ok_fields {b b2 : BoardData} {ts : List Nat}
    {wfb : List (List (List Nat))} {c : Nat}
    (h : b.append_buffer ts wfb c = Except.ok b2) :
    b2.current_event = b.current_event + c ∧ b2.ts_buffer = b.ts_buffer
    ∧ b2.max_events = b.max_events ∧ b.current_event + c ≤ b.max_events := by
  unfold BoardData.append_buffer at h
  split at h
  · cases h
  · rename_i hcap
    injection h with h2
    subst h2
    exact ⟨rfl, rfl, rfl, by omega⟩

/-- The rollover re-insertion loop keeps every produced board within its
capacity, provided the input boards are fresh (empty staging, in capacity). -/
theorem reinsertBuffers_ok_inv :
    ∀ (bs : List BoardData) (vs : List (List Nat × List (List (List Nat)) × Nat))
      (bs2 : List BoardData),
    (∀ b ∈ bs, b.ts_buffer = [] ∧ b.current_event ≤ b.max_events) →
    reinsertBuffers bs vs = Except.ok bs2 →
    ∀ b ∈ bs2, b.current_event + b.ts_buffer.length ≤ b.max_events := by
  intro bs
  induction bs with
  | nil =>
    intro vs bs2 hb h
    cases vs with
    | nil =>
      injection h with h2
      subst h2
      intro x hx
      cases hx
    | cons v vs =>
      injection h with h2
      subst h2
      intro x hx
      cases hx
  | cons b bs ih =>
    intro vs bs2 hb h
    cases vs with
    | nil =>
      injection h with h2
      subst h2
      intro x hx
      rcases hb x hx with ⟨h3, h4⟩
      rw [h3]
      simpa using h4
    | cons v vs =>
      simp only [reinsertBuffers] at h
      split at h
      · cases h
      · rename_i b2 hstep
        split at h
        · cases h
        · rename_i bs2t hrec
          injection h with h2
          subst h2
          intro x hx
          rcases List.mem_cons.mp hx with rfl | hx2
          · rcases hb b (List.mem_cons_self b bs) with ⟨hts, hcur⟩
            by_cases hc : 0 < v.2.2
            · rw [if_pos hc] at hstep
              rcases append_buffer_ok_fields hstep with ⟨h5, h6, h7, h8⟩
              rw [h5, h6, h7, hts]
              simpa using h8
            · rw [if_neg hc] at hstep
              injection hstep with h5
              subst h5
              rw [hts]
              simpa using hcur
          · exact ih vs bs2t (fun y hy => hb y (List.mem_cons_of_mem b hy)) hrec x hx2

/-- The rollover re-insertion loop preserves the number of boards. -/
theorem reinsertBuffers_length :
    ∀ (bs : List BoardData) (vs : List (List Nat × List (List (List Nat)) × Nat))
      (bs2 : List BoardData),
    reinsertBuffers bs vs = Except.ok bs2 → bs2.length = bs.length := by
  intro bs
  induction bs with
  | nil =>
    intro vs bs2 h
    cases vs with
    | nil => injection h with h2; subst h2; rfl
    | cons v vs => injection h with h2; subst h2; rfl
  | cons b bs ih =>
    intro vs bs2 h
    cases vs with
    | nil => injection h with h2; subst h2; rfl
    | cons v vs =>
      simp only [reinsertBuffers] at h
      split at h
      · cases h
      · rename_i b2 hstep
        split at h
        · cases h
        · rename_i bs2t hrec
          injection h with h2
          subst h2
          simp [ih vs bs2t hrec]

/-- A successful rollover keeps every board within capacity, preserves the
number of boards, and increments the subrun. -/
theorem rollover_ok_inv {w w2 : HDF5Writer} (h : w.rollover = Except.ok w2) :
    (∀ b ∈ w2.boards, b.current_event + b.ts_buffer.length ≤ b.max_events)
    ∧ w2.boards.length = w.boards.length
    ∧ w2.subrun = w.subrun + 1 := by
  unfold HDF5Writer.rollover at h
  dsimp only at h
  split at h
  · cases h
  · rename_i bs hr
    injection h with h2
    subst h2
    have hfresh : ∀ b ∈ List.replicate w.boards.length
        (BoardData.new w.n_channels w.n_samples w.max_events_per_board w.buffer_capacity),
        b.ts_buffer = [] ∧ b.current_event ≤ b.max_events := by
      intro b hb
      rw [List.eq_of_mem_replicate hb]
      exact ⟨rfl, by simp [BoardData.new]⟩
    refine ⟨reinsertBuffers_ok_inv _ _ _ hfresh hr, ?_, rfl⟩
    rw [reinsertBuffers_length _ _ _ hr, List.length_replicate]

/-- Claim C3: (1) starting from any writer state whose boards satisfy
`current_event + buffered ≤ max_events_per_board`, a successful
`HDF5Writer::append_event` preserves that bound on every board; (2) when the
addressed board is full (`current_event + buffered ≥ max_events`) and the
event has matching dimensions, the per-board append rejects the event with
the capacity error — nothing is written to the full file — and any successful
outcome of the writer-level append went through a rollover (the subrun
increments); (3) after any successful rollover, the buffers carried into the
new file leave every board within `max_events_per_board`. -/
theorem writer_capacity_invariant (w : HDF5Writer) (board t : Nat)
    (wf : List (List Nat)) (tid fl : Nat) (fa : Bool)
    (hinv : ∀ b ∈ w.boards, b.current_event + b.ts_buffer.length ≤ b.max_events) :
    (∀ w2, w.append_event board t wf tid fl fa = some (Except.ok w2) →
        ∀ b ∈ w2.boards, b.current_event + b.ts_buffer.length ≤ b.max_events)
    ∧ (∀ b, w.boards[board]? = some b →
        b.max_events ≤ b.current_event + b.ts_buffer.length →
        (wf.length = b.n_channels ∧ ∀ row ∈ wf, row.length = b.n_samples) →
        b.append_event t wf tid fl fa = Except.error "Maximum number of events reached"
        ∧ ∀ w2, w.append_event board t wf tid fl fa = some (Except.ok w2) →
            w2.subrun = w.subrun + 1)
    ∧ (∀ w2, w.rollover = Except.ok w2 →
        ∀ b ∈ w2.boards, b.current_event + b.ts_buffer.length ≤ b.max_events) := by
  have hfullerr : ∀ b : BoardData,
      b.max_events ≤ b.current_event + b.ts_buffer.length →
      (wf.length = b.n_channels ∧ ∀ row ∈ wf, row.length = b.n_samples) →
      b.append_event t wf tid fl fa = Except.error "Maximum number of events reached" := by
    intro b hfull hdim
    unfold BoardData.append_event
    rw [if_neg (not_not_intro hdim), if_pos hfull]
  refine ⟨?_, ?_, fun w2 hr => (rollover_ok_inv hr).1⟩
  · intro w2 h
    simp only [HDF5Writer.append_event] at h
    split at h
    · cases h
    · rename_i b hg
      split at h
      · rename_i b2 hab
        simp only [Option.some.injEq, Except.ok.injEq] at h
        subst h
        intro x hx
        rcases List.mem_or_eq_of_mem_set hx with hx2 | rfl
        · exact hinv x hx2
        · exact (append_event_ok_inv hab).1
      · rename_i e hab
        split at h
        · split at h
          · simp at h
          · rename_i w3 hr
            split at h
            · cases h
            · rename_i b3 hg3
              split at h
              · rename_i b4 hab3
                simp only [Option.some.injEq, Except.ok.injEq] at h
                subst h
                intro x hx
                rcases List.mem_or_eq_of_mem_set hx with hx2 | rfl
                · exact (rollover_ok_inv hr).1 x hx2
                · exact (append_event_ok_inv hab3).1
              · simp at h
        · simp at h
  · intro b hg hfull hdim
    refine ⟨hfullerr b hfull hdim, ?_⟩
    intro w2 h
    simp only [HDF5Writer.append_event] at h
    split at h
    · cases h
    · rename_i b5 hg5
      rw [hg] at hg5
      injection hg5 with hg6
      subst hg6
      split at h
      · rename_i b2 hab
        rw [hfullerr b hfull hdim] at hab
        cases hab
      · rename_i e hab
        rw [hfullerr b hfull hdim] at hab
        injection hab with hab2
        subst hab2
        split at h
        · split at h
          · simp at h
          · rename_i w3 hr
            split at h
            · cases h
            · rename_i b3 hg3
              split at h
              · rename_i b4 hab3
                simp only [Option.some.injEq, Except.ok.injEq] at h
                subst h
                exact (rollover_ok_inv hr).2.2
              · simp at h
        · rename_i he
          exact absurd rfl he

/-- Witness for C3: a one-board writer (E = 2, B = 3) with one flushed and one
staged event, so the addressed board is full; the append rolls over, carries
the staged event, and retries successfully. -/
theorem writer_capacity_invariant_witness :
    (∀ b ∈ c3Writer.boards, b.current_event + b.ts_buffer.length ≤ b.max_events)
    ∧ ((∀ w2, c3Writer.append_event 0 9 [[9]] 9 0 false = some (Except.ok w2) →
        ∀ b ∈ w2.boards, b.current_event + b.ts_buffer.length ≤ b.max_events)
    ∧ (∀ b, c3Writer.boards[0]? = some b →
        b.max_events ≤ b.current_event + b.ts_buffer.length →
        ([[9]].length = b.n_channels ∧ ∀ row ∈ [[9]], row.length = b.n_samples) →
        b.append_event 9 [[9]] 9 0 false
            = Except.error "Maximum number of events reached"
        ∧ ∀ w2, c3Writer.append_event 0 9 [[9]] 9 0 false = some (Except.ok w2) →
            w2.subrun = c3Writer.subrun + 1)
    ∧ (∀ w2, c3Writer.rollover = Except.ok w2 →
        ∀ b ∈ w2.boards, b.current_event + b.ts_buffer.length ≤ b.max_events)) :=
  ⟨by decide, writer_capacity_invariant c3Writer 0 9 [[9]] 9 0 false (by decide)⟩

/-- Claim C10: `HDF5Writer::append_event` indexes `self.boards[board]` without
a bounds check; for `board < N` the lookup (and the re-lookup after a
rollover, which preserves the number of boards) always succeeds and the call
returns a result, while for `board ≥ N` the call panics (modelled as `none`)
instead of returning an error value. -/
theorem append_event_board_index (w : HDF5Writer) (board t : Nat)
    (wf : List (List Nat)) (tid fl : Nat) (fa : Bool) :
    (board < w.boards.length →
      (w.append_event board t wf tid fl fa).isSome = true)
    ∧ (w.boards.length ≤ board →
      w.append_event board t wf tid fl fa = none) := by
  constructor
  · intro hlt
    cases hg : w.boards[board]? with
    | none =>
      rw [List.getElem?_eq_getElem hlt] at hg
      cases hg
    | some b =>
      simp only [HDF5Writer.append_event, hg]
      cases hab : b.append_event t wf tid fl fa with
      | ok b2 => simp
      | error e =>
        dsimp only
        by_cases he : e = "Maximum number of events reached"
        · rw [if_pos he]
          cases hr : w.rollover with
          | error e2 => simp
          | ok w3 =>
            have hlen : board < w3.boards.length := by
              rw [(rollover_ok_inv hr).2.1]
              exact hlt
            cases hg3 : w3.boards[board]? with
            | none =>
              rw [List.getElem?_eq_getElem hlen] at hg3
              cases hg3
            | some b3 =>
              cases hab3 : b3.append_event t wf tid fl fa with
              | ok b4 => simp [hg3, hab3]
              | error e3 => simp [hg3, hab3]
        · rw [if_neg he]
          simp
  · intro hge
    have hg : w.boards[board]? = none := List.getElem?_eq_none hge
    simp [HDF5Writer.append_event, hg]

/-- Witness for C10 on a fresh two-board writer: board 0 is in bounds and the
append returns a value; board 5 is out of bounds and the call is the modelled
panic. -/
theorem append_event_board_index_witness :
    (0 < (HDF5Writer.new 1 1 2 4 2).boards.length
      ∧ ((HDF5Writer.new 1 1 2 4 2).append_event 0 3 [[4]] 5 0 false).isSome = true)
    ∧ (HDF5Writer.new 1 1 2 4 2).boards.length ≤ 5
      ∧ (HDF5Writer.new 1 1 2 4 2).append_event 5 3 [[4]] 5 0 false = none :=
  ⟨⟨by decide, (append_event_board_index (HDF5Writer.new 1 1 2 4 2) 0 3 [[4]] 5 0 false).1
      (by decide)⟩,
   by decide, (append_event_board_index (HDF5Writer.new 1 1 2 4 2) 5 3 [[4]] 5 0 false).2
      (by decide)⟩

/-- Claim C1, evaluated at the failing input: two events with trigger ids 7
and 8 are appended to a fresh board with buffer capacity 2, which triggers a
flush. The on-disk `timestamps` dataset holds the appended timestamps, but
the on-disk `triggerids` dataset still holds its initial zeros: `flush`
(src/writer.rs:323-360) writes only the `timestamps` and `waveforms` slices
and never writes the `triggerids` (or `flags`, `boardfail`) dataset, and
`take_buffer` (src/writer.rs:364-370) likewise drops staged trigger ids at
rollover, so the concatenated on-disk `triggerids` cannot equal the appended
sequence. -/
theorem writer_triggerids_not_persisted :
    flushedBoard.map (fun b => b.disk_timestamps.take b.current_event)
        = Except.ok [10, 11]
    ∧ flushedBoard.map (fun b => b.disk_triggerids.take b.current_event)
        = Except.ok [0, 0]
    ∧ ([0, 0] : List Nat) ≠ [7, 8] := by
  refine ⟨by rfl, by rfl, by decide⟩

/-! ## Theorems: run-file naming (claim C8) -/

/-- Claim C8, evaluated at the failing input. With an empty campaign
directory, `create_run_file` produces `run0_0.h5` — a one-digit `_0` subrun
suffix, not the claimed zero-padded `_00` — while the run-number scan itself
works (run3 present gives run4). Because the name never contains `_00`, the
writer template substitution in `HDF5Writer::new` finds nothing to replace,
and the first rollover recreates exactly the same filename instead of the
claimed `run0_01.h5`: the subrun suffix never increments. -/
theorem run_file_naming_bug :
    create_run_file_name [] = "run0_0.h5".toList
    ∧ create_run_file_name [] ≠ "run0_00.h5".toList
    ∧ create_run_file_name ["run3_0.h5".toList] = "run4_0.h5".toList
    ∧ rollover_filename (file_template (create_run_file_name [])) 1
        = create_run_file_name []
    ∧ rollover_filename (file_template (create_run_file_name [])) 1
        ≠ "run0_01.h5".toList := by
  refine ⟨by decide, by decide, by decide, by decide, by decide⟩

end Cliq
